import Mathlib

/-!
Verification of the request-options decoding and handler construction logic of
the `handler` package (files `handler.go` and the unnamed stack-trace variant).

The package decodes an incoming HTTP request into a canonical
`RequestOptions \x7bQuery, Variables, OperationName\x7d` triple, dispatching on
URL query parameters, HTTP method, body presence and the Content-Type header.
The decoding functions (`getFromForm`, `NewRequestOptions`) are byte-identical
in the three source variants, so they are embedded once; the variant-specific
constructors (`Config`, `Handler`, `NewConfig`, `New`) are embedded per variant
in the namespaces `SrcMain` (first part of handler.go) and `Part000`
(the unnamed source file).

Go `encoding/json` is external library code; its behaviour on the shapes this
package uses (structs of string / map fields, `map[string]interface\x7b\x7d`)
is modelled below: a JSON value type `Jval`, a total fueled parser matching the
JSON grammar accepted by `encoding/json`, and per-target unmarshal functions
reproducing Go's semantics (syntax errors mutate nothing; type errors on one
field are recorded but decoding of the remaining fields continues; `null`
leaves string fields unchanged and sets map fields to nil; later duplicate
object keys overwrite earlier ones; key matching is case-insensitive).
Go `nil` maps and empty maps are both modelled as `[]`.
-/

/-- A JSON value. Number lexemes are kept as their source text (the claims
under verification never depend on numeric value, only on which JSON value a
field holds), and objects are association lists of fields in source order. -/
inductive Jval where
  | jnull
  | jbool (b : Bool)
  | jnum (lexeme : String)
  | jstr (s : String)
  | jarr (elems : List Jval)
  | jobj (fields : List (String × Jval))
deriving Repr

/-- Insert (key, value) into an association-list map, overwriting in place if
the key is present and appending otherwise: the order-irrelevant model of a Go
map assignment `m[k] = v`. -/
def mapInsert (m : List (String × Jval)) (k : String) (v : Jval) :
    List (String × Jval) :=
  match m with
  | [] => [(k, v)]
  | (k1, v1) :: rest =>
    if k1 = k then (k1, v) :: rest else (k1, v1) :: mapInsert rest k v

/-- Fold a JSON object's fields into an existing map, later keys overwriting
earlier ones: Go's decoding of a JSON object into a (possibly already
populated) `map[string]interface\x7b\x7d`. -/
def objInsertAll (m : List (String × Jval)) (fs : List (String × Jval)) :
    List (String × Jval) :=
  match fs with
  | [] => m
  | (k, v) :: rest => objInsertAll (mapInsert m k v) rest

/-! ### JSON lexing helpers -/

/-- Whitespace accepted between JSON tokens (RFC 8259, as in `encoding/json`). -/
def isJsonWs (c : Char) : Bool :=
  c == ' ' || c == '\t' || c == '\n' || c == '\r'

/-- Drop leading JSON whitespace. -/
def skipWs : List Char → List Char
  | [] => []
  | c :: cs => if isJsonWs c then skipWs cs else c :: cs

/-- ASCII decimal digit test. -/
def isDig (c : Char) : Bool := '0' ≤ c && c ≤ '9'

/-- Split off a maximal run of decimal digits. -/
def spanDigits : List Char → List Char × List Char
  | [] => ([], [])
  | c :: cs =>
    if isDig c then
      let (ds, r) := spanDigits cs
      (c :: ds, r)
    else ([], c :: cs)

/-- Value of one hexadecimal digit, if it is one, computed from the code
point: digits are code points 48–57, lower-case letters a–f are 97–102 and
upper-case A–F are 65–70. -/
def hexDigitVal (c : Char) : Option Nat :=
  let n := c.toNat
  if 48 ≤ n ∧ n ≤ 57 then some (n - 48)
  else if 97 ≤ n ∧ n ≤ 102 then some (n - 87)
  else if 65 ≤ n ∧ n ≤ 70 then some (n - 55)
  else none

/-- Single-character string escapes of JSON. -/
def escChar : Char → Option Char
  | '"' => some '"'
  | '\\' => some '\\'
  | '/' => some '/'
  | 'b' => some (Char.ofNat 8)
  | 'f' => some (Char.ofNat 12)
  | 'n' => some '\n'
  | 'r' => some '\r'
  | 't' => some '\t'
  | _ => none

/-- Parse the remainder of a JSON string literal, the opening quote already
consumed; returns the decoded text and the rest of the input. `\uXXXX` escapes
become the character with that code point. -/
def parseStringBody (acc : List Char) : List Char → Option (String × List Char)
  | [] => none
  | '"' :: rest => some (String.mk acc.reverse, rest)
  | '\\' :: 'u' :: a :: b :: c :: d :: rest =>
    match hexDigitVal a, hexDigitVal b, hexDigitVal c, hexDigitVal d with
    | some va, some vb, some vc, some vd =>
      parseStringBody (Char.ofNat (((va * 16 + vb) * 16 + vc) * 16 + vd) :: acc) rest
    | _, _, _, _ => none
  | '\\' :: e :: rest =>
    match escChar e with
    | some ch => parseStringBody (ch :: acc) rest
    | none => none
  | c :: rest => parseStringBody (c :: acc) rest

/-- Parse a JSON number, keeping its lexeme: optional minus, integer part
(`0` or a nonzero-led digit run), optional fraction, optional exponent. -/
def parseNumber (cs : List Char) : Option (String × List Char) :=
  let (negPart, cs1) : List Char × List Char :=
    match cs with
    | '-' :: r => (['-'], r)
    | _ => ([], cs)
  let (intDs, cs2) := spanDigits cs1
  match intDs with
  | [] => none
  | '0' :: _ :: _ => none
  | _ =>
    let fracParse : Option (List Char × List Char) :=
      match cs2 with
      | '.' :: r =>
        let (ds, r2) := spanDigits r
        if ds.isEmpty then none else some ('.' :: ds, r2)
      | _ => some ([], cs2)
    match fracParse with
    | none => none
    | some (fracPart, cs3) =>
      let expParse : Option (List Char × List Char) :=
        match cs3 with
        | 'e' :: r | 'E' :: r =>
          let (sgn, r2) : List Char × List Char :=
            match r with
            | '+' :: r3 => (['+'], r3)
            | '-' :: r3 => (['-'], r3)
            | _ => ([], r)
          let (ds, r4) := spanDigits r2
          if ds.isEmpty then none else some ('e' :: sgn ++ ds, r4)
        | _ => some ([], cs3)
      match expParse with
      | none => none
      | some (expPart, cs4) =>
        some (String.mk (negPart ++ intDs ++ fracPart ++ expPart), cs4)

mutual

/-- Fueled recursive-descent parse of one JSON value; returns the value and
the unconsumed input. Fuel only bounds nesting: any input whose length is
below the fuel parses identically for all larger fuels. -/
def pVal : Nat → List Char → Option (Jval × List Char)
  | 0, _ => none
  | Nat.succ n, cs =>
    match skipWs cs with
    | 'n' :: 'u' :: 'l' :: 'l' :: rest => some (Jval.jnull, rest)
    | 't' :: 'r' :: 'u' :: 'e' :: rest => some (Jval.jbool true, rest)
    | 'f' :: 'a' :: 'l' :: 's' :: 'e' :: rest => some (Jval.jbool false, rest)
    | '"' :: rest =>
      match parseStringBody [] rest with
      | some (s, rest2) => some (Jval.jstr s, rest2)
      | none => none
    | '[' :: rest =>
      (match skipWs rest with
      | ']' :: rest2 => some (Jval.jarr [], rest2)
      | _ =>
        match pElems n rest with
        | some (es, rest2) => some (Jval.jarr es, rest2)
        | none => none)
    | '{' :: rest =>
      (match skipWs rest with
      | '}' :: rest2 => some (Jval.jobj [], rest2)
      | _ =>
        match pFields n rest with
        | some (fs, rest2) => some (Jval.jobj fs, rest2)
        | none => none)
    | other =>
      match parseNumber other with
      | some (lex, rest) => some (Jval.jnum lex, rest)
      | none => none

/-- Parse the comma-separated elements of a non-empty JSON array, up to and
including the closing bracket. -/
def pElems : Nat → List Char → Option (List Jval × List Char)
  | 0, _ => none
  | Nat.succ n, cs =>
    match pVal n cs with
    | none => none
    | some (v, rest) =>
      match skipWs rest with
      | ',' :: rest2 =>
        (match pElems n rest2 with
        | some (vs, rest3) => some (v :: vs, rest3)
        | none => none)
      | ']' :: rest2 => some ([v], rest2)
      | _ => none

/-- Parse the comma-separated members of a non-empty JSON object, up to and
including the closing brace. -/
def pFields : Nat → List Char → Option (List (String × Jval) × List Char)
  | 0, _ => none
  | Nat.succ n, cs =>
    match skipWs cs with
    | '"' :: rest =>
      (match parseStringBody [] rest with
      | none => none
      | some (k, rest2) =>
        match skipWs rest2 with
        | ':' :: rest3 =>
          (match pVal n rest3 with
          | none => none
          | some (v, rest4) =>
            match skipWs rest4 with
            | ',' :: rest5 =>
              (match pFields n rest5 with
              | some (fs, rest6) => some ((k, v) :: fs, rest6)
              | none => none)
            | '}' :: rest5 => some ([(k, v)], rest5)
            | _ => none)
        | _ => none)
    | _ => none

end

/-- Parse a complete JSON text: one value with nothing but whitespace after
it. `none` models a Go `encoding/json` syntax error, which `Unmarshal` reports
before writing anything to its target. -/
def parseJson (s : String) : Option Jval :=
  match pVal (2 * s.length + 2) s.data with
  | some (v, rest) => if skipWs rest = [] then some v else none
  | none => none

/-! ### Go `encoding/json` unmarshalling into the package's target types -/

/-- Lower-case an ASCII letter, leaving other characters alone. -/
def asciiLowerChar (c : Char) : Char :=
  if 'A' ≤ c && c ≤ 'Z' then Char.ofNat (c.toNat + 32) else c

/-- ASCII lower-casing of a string. -/
def asciiLower (s : String) : String :=
  String.mk (s.data.map asciiLowerChar)

/-- Case-insensitive key match of `encoding/json` (modelled with ASCII
folding): a JSON object key selects the struct field whose effective name
`fieldName` (the lower-cased json tag) it equals up to case. -/
def keyMatches (k fieldName : String) : Bool :=
  asciiLower k == fieldName

/-- The canonical decoded form (`RequestOptions` in handler.go): GraphQL
document text, variable mapping and operation name, with Go zero values as
defaults. -/
structure RequestOptions where
  Query : String := ""
  Variables : List (String × Jval) := []
  OperationName : String := ""
deriving Repr

/-- The workaround shape for getting `variables` as a JSON string
(`requestOptionsCompatibility` in handler.go): all three fields are strings. -/
structure requestOptionsCompatibility where
  Query : String := ""
  Variables : String := ""
  OperationName : String := ""
deriving Repr

/-- Decode one JSON object member into a `RequestOptions` under Go semantics:
a string stores into `Query`/`OperationName`, an object merges into
`Variables`, `null` leaves strings unchanged and sets the map to nil, any
other shape is a type error — recorded in the `Bool` flag while decoding of
later members continues — and unknown keys are ignored. -/
def setOptsField (acc : RequestOptions × Bool) (kv : String × Jval) :
    RequestOptions × Bool :=
  let (opts, ok) := acc
  if keyMatches kv.1 "query" then
    match kv.2 with
    | Jval.jstr s => ({ opts with Query := s }, ok)
    | Jval.jnull => (opts, ok)
    | _ => (opts, false)
  else if keyMatches kv.1 "variables" then
    match kv.2 with
    | Jval.jobj fs => ({ opts with Variables := objInsertAll opts.Variables fs }, ok)
    | Jval.jnull => ({ opts with Variables := [] }, ok)
    | _ => (opts, false)
  else if keyMatches kv.1 "operationname" then
    match kv.2 with
    | Jval.jstr s => ({ opts with OperationName := s }, ok)
    | Jval.jnull => (opts, ok)
    | _ => (opts, false)
  else (opts, ok)

/-- Model of `json.Unmarshal(body, &opts)` for `opts : RequestOptions`.
Returns the updated target and whether decoding succeeded (`false` models a
non-nil error). A syntax error mutates nothing; a non-object top level is a
type error that stores nothing; `null` is a no-op without error; an object is
decoded member by member with `setOptsField`. -/
def unmarshalIntoOpts (opts : RequestOptions) (s : String) :
    RequestOptions × Bool :=
  match parseJson s with
  | none => (opts, false)
  | some (Jval.jobj fs) => fs.foldl setOptsField (opts, true)
  | some Jval.jnull => (opts, true)
  | some _ => (opts, false)

/-- Decode one JSON object member into a `requestOptionsCompatibility`
(all three fields plain strings) under the same Go semantics. -/
def setCompatField (acc : requestOptionsCompatibility × Bool) (kv : String × Jval) :
    requestOptionsCompatibility × Bool :=
  let (opts, ok) := acc
  if keyMatches kv.1 "query" then
    match kv.2 with
    | Jval.jstr s => ({ opts with Query := s }, ok)
    | Jval.jnull => (opts, ok)
    | _ => (opts, false)
  else if keyMatches kv.1 "variables" then
    match kv.2 with
    | Jval.jstr s => ({ opts with Variables := s }, ok)
    | Jval.jnull => (opts, ok)
    | _ => (opts, false)
  else if keyMatches kv.1 "operationname" then
    match kv.2 with
    | Jval.jstr s => ({ opts with OperationName := s }, ok)
    | Jval.jnull => (opts, ok)
    | _ => (opts, false)
  else (opts, ok)

/-- Model of `json.Unmarshal(body, &optsCompatible)`. -/
def unmarshalIntoCompat (opts : requestOptionsCompatibility) (s : String) :
    requestOptionsCompatibility × Bool :=
  match parseJson s with
  | none => (opts, false)
  | some (Jval.jobj fs) => fs.foldl setCompatField (opts, true)
  | some Jval.jnull => (opts, true)
  | some _ => (opts, false)

/-- Model of `json.Unmarshal(data, &m)` for `m : map[string]Jval`: an object
merges into the existing map, `null` sets the map to nil, anything else (or a
syntax error) leaves the target unchanged and reports an error. -/
def unmarshalIntoVarMap (m : List (String × Jval)) (s : String) :
    List (String × Jval) × Bool :=
  match parseJson s with
  | none => (m, false)
  | some (Jval.jobj fs) => (objInsertAll m fs, true)
  | some Jval.jnull => ([], true)
  | some _ => (m, false)

/-! ### The incoming request abstraction and the decoder -/

/-- Go `url.Values`: a mapping from keys to lists of values. -/
def Values : Type := List (String × List String)

/-- `url.Values.Get`: the first value associated to the key, or `""` when the
key is absent or has no values. -/
def Values.get (vs : Values) (key : String) : String :=
  match vs.find? (fun p => p.1 == key) with
  | some (_, v :: _) => v
  | _ => ""

/-- The parts of `*http.Request` that `NewRequestOptions` consumes. `body` is
`none` when `r.Body == nil`; otherwise reading it yields either the full byte
content or a read error. `postForm` is the outcome of `r.ParseForm()` /
`r.PostForm` (the body parsed as urlencoded key/value pairs, or a parse
error); its urlencoded syntax is abstracted since no claim depends on it. -/
structure Request where
  method : String
  contentType : String
  urlQuery : Values
  body : Option (Except Unit String)
  postForm : Except Unit Values

/-- Content-type constant of handler.go. -/
def ContentTypeJSON : String := "application/json"

/-- Content-type constant of handler.go. -/
def ContentTypeGraphQL : String := "application/graphql"

/-- Content-type constant of handler.go. -/
def ContentTypeFormURLEncoded : String := "application/x-www-form-urlencoded"

/-- `getFromForm` of handler.go: if the `query` field of the values is
non-empty, build a `RequestOptions` from the values; otherwise report no
result. The Go source declares `var variables map[string]interface\x7b\x7d`
(nil) and calls `json.Unmarshal([]byte(variablesStr), variables)` passing the
nil map by value — not a pointer — so `Unmarshal` returns an
`InvalidUnmarshalError` before writing anything; the error is discarded and
`variables` is still nil when stored, whatever the `variables` field held. -/
def getFromForm (values : Values) : Option RequestOptions :=
  let query := values.get "query"
  if query ≠ "" then
    some { Query := query, Variables := [], OperationName := values.get "operationName" }
  else
    none

/-- Split a character list at every `;`, keeping empty pieces: the behaviour
of Go `strings.Split(s, ";")`, which always returns at least one piece. -/
def splitSemicolons : List Char → List (List Char)
  | [] => [[]]
  | c :: cs =>
    if c = ';' then [] :: splitSemicolons cs
    else
      match splitSemicolons cs with
      | piece :: pieces => (c :: piece) :: pieces
      | [] => [[c]]

/-- First `;`-delimited token of a Content-Type header value, as computed by
`strings.Split(contentTypeStr, ";")[0]` in handler.go. -/
def contentTypeFirstToken (s : String) : String :=
  String.mk ((splitSemicolons s.data).headD [])

/-- `NewRequestOptions` of handler.go: parse an HTTP request into GraphQL
request options. Identical in all three source variants. -/
def NewRequestOptions (r : Request) : RequestOptions :=
  match getFromForm r.urlQuery with
  | some reqOpt => reqOpt
  | none =>
    if r.method ≠ "POST" then {}
    else
      match r.body with
      | none => {}
      | some bodyStream =>
        let contentType := contentTypeFirstToken r.contentType
        if contentType = ContentTypeGraphQL then
          match bodyStream with
          | Except.error _ => {}
          | Except.ok body => { Query := body }
        else if contentType = ContentTypeFormURLEncoded then
          match r.postForm with
          | Except.error _ => {}
          | Except.ok form =>
            match getFromForm form with
            | some reqOpt => reqOpt
            | none => {}
        else
          match bodyStream with
          | Except.error _ => {}
          | Except.ok body =>
            let step1 := unmarshalIntoOpts {} body
            if step1.2 then step1.1
            else
              let optsCompatible := (unmarshalIntoCompat {} body).1
              let vars := (unmarshalIntoVarMap step1.1.Variables optsCompatible.Variables).1
              { step1.1 with Variables := vars }

/-! ### Handler construction (variant-specific) -/

/-- Stand-in for the external `graphql.Schema`; `Option GqlSchema` models the
`*graphql.Schema` pointer (with `none` for Go `nil`). -/
structure GqlSchema where
  id : Nat
deriving Repr, DecidableEq

namespace SrcMain

/-- Callback type of handler.go (first variant):
`func(time.Duration, string, string, string, int64)`. -/
def RequestCallbackFn : Type := Int → String → String → String → Int → Unit

/-- `Handler` of handler.go (first variant). -/
structure Handler where
  Schema : Option GqlSchema
  Pretty : Bool
  BeforeRequest : RequestCallbackFn
  AfterRequest : RequestCallbackFn

/-- `Config` of handler.go (first variant). -/
structure Config where
  Schema : Option GqlSchema
  Pretty : Bool
  BeforeRequest : RequestCallbackFn
  AfterRequest : RequestCallbackFn

/-- `NewConfig` of handler.go (first variant): nil schema, pretty output,
no-op callbacks. -/
def NewConfig : Config :=
  { Schema := none
    Pretty := true
    BeforeRequest := fun _ _ _ _ _ => ()
    AfterRequest := fun _ _ _ _ _ => () }

/-- `New` of handler.go (first variant). The argument is `Option Config`
(`none` models a nil `*Config`, replaced by `NewConfig()`); the Go
`panic("undefined GraphQL schema")` on a nil schema is modelled as
`Except.error` carrying the panic message. -/
def New (p : Option Config) : Except String Handler :=
  let p := p.getD NewConfig
  match p.Schema with
  | none => Except.error "undefined GraphQL schema"
  | some _ =>
    Except.ok
      { Schema := p.Schema
        Pretty := p.Pretty
        BeforeRequest := p.BeforeRequest
        AfterRequest := p.AfterRequest }

end SrcMain

namespace Part000

/-- `Handler` of the unnamed source file: the Go struct's zero value for
`ShowFullStackTrace` is `false`, recorded here as the field default so that a
composite literal omitting the field (as `New` does) leaves it `false`. -/
structure Handler where
  Schema : Option GqlSchema
  Pretty : Bool
  LogSlowResponses : Bool
  ShowFullStackTrace : Bool := false

/-- `Config` of the unnamed source file. -/
structure Config where
  Schema : Option GqlSchema
  Pretty : Bool
  LogSlowResponses : Bool
  ShowFullStackTrace : Bool

/-- `NewConfig` of the unnamed source file. -/
def NewConfig : Config :=
  { Schema := none
    Pretty := true
    LogSlowResponses := false
    ShowFullStackTrace := false }

/-- `New` of the unnamed source file. The returned composite literal sets
`Schema`, `Pretty` and `LogSlowResponses` only; `ShowFullStackTrace` is
omitted and therefore keeps the zero value `false`. -/
def New (p : Option Config) : Except String Handler :=
  let p := p.getD NewConfig
  match p.Schema with
  | none => Except.error "undefined GraphQL schema"
  | some _ =>
    Except.ok
      { Schema := p.Schema
        Pretty := p.Pretty
        LogSlowResponses := p.LogSlowResponses }

end Part000

theorem mapInsert_of_not_mem (m : List (String × Jval)) (k : String) (v : Jval)
    (h : ∀ p ∈ m, p.1 ≠ k) : mapInsert m k v = m ++ [(k, v)] := by
  induction m with
  | nil => rfl
  | cons p rest ih =>
    obtain ⟨k1, v1⟩ := p
    have hk : k1 ≠ k := h (k1, v1) (List.mem_cons_self _ _)
    simp only [mapInsert]
    rw [if_neg hk]
    simp only [List.cons_append, List.cons.injEq, true_and]
    exact ih (fun q hq => h q (List.mem_cons_of_mem _ hq))

theorem objInsertAll_eq_append (fs : List (String × Jval)) :
    ∀ m : List (String × Jval),
    (∀ p ∈ fs, ∀ q ∈ m, q.1 ≠ p.1) → (fs.map Prod.fst).Nodup →
    objInsertAll m fs = m ++ fs := by
  induction fs with
  | nil => intro m _ _; simp [objInsertAll]
  | cons p rest ih =>
    intro m hdisj hnodup
    obtain ⟨k, v⟩ := p
    have hkm : ∀ q ∈ m, q.1 ≠ k :=
      fun q hq => hdisj (k, v) (List.mem_cons_self _ _) q hq
    have hknotin : k ∉ rest.map Prod.fst := by
      have := hnodup
      simp only [List.map_cons, List.nodup_cons] at this
      exact this.1
    rw [objInsertAll, mapInsert_of_not_mem m k v hkm]
    rw [ih (m ++ [(k, v)]) ?_ ?_]
    · simp
    · intro p hp q hq
      rcases List.mem_append.mp hq with hq1 | hq2
      · exact hdisj p (List.mem_cons_of_mem _ hp) q hq1
      · have : q = (k, v) := by simpa using hq2
        subst this
        intro hcontra
        refine hknotin ?_
        have hmem := List.mem_map_of_mem Prod.fst hp
        rw [← hcontra] at hmem
        exact hmem
    · have := hnodup
      simp only [List.map_cons, List.nodup_cons] at this
      exact this.2

theorem objInsertAll_nil_of_nodup (fs : List (String × Jval))
    (h : (fs.map Prod.fst).Nodup) : objInsertAll [] fs = fs := by
  simpa using objInsertAll_eq_append fs [] (by simp) h

/-- Claim C1: for every request whose URL query parameters contain a non-empty
`query` parameter, `NewRequestOptions` returns a `RequestOptions` built solely
from the URL query string — the right-hand side mentions nothing but `urlq` —
regardless of the HTTP method, the Content-Type header or any body content,
and independently of the body (the body binder is universally quantified and
absent from the result, so the body is never read). -/
theorem C1_query_string_wins (method ct : String) (urlq : Values)
    (body : Option (Except Unit String)) (postForm : Except Unit Values)
    (h : Values.get urlq "query" ≠ "") :
    NewRequestOptions
        { method := method, contentType := ct, urlQuery := urlq,
          body := body, postForm := postForm } =
      { Query := Values.get urlq "query", Variables := [],
        OperationName := Values.get urlq "operationName" } := by
  simp [NewRequestOptions, getFromForm, h]

/-- Witness for C1: a POST carrying a JSON body is still decoded purely from
`?query=foo&operationName=bar`. -/
theorem C1_witness :
    NewRequestOptions
        { method := "POST", contentType := "application/json",
          urlQuery := [("query", ["foo"]), ("operationName", ["bar"])],
          body := some (Except.ok "\x7b\"query\":\"other\"\x7d"),
          postForm := Except.error () } =
      { Query := "foo", Variables := [], OperationName := "bar" } :=
  C1_query_string_wins "POST" "application/json"
    [("query", ["foo"]), ("operationName", ["bar"])]
    (some (Except.ok "\x7b\"query\":\"other\"\x7d")) (Except.error ()) (by decide)

/-- Claim C3: with no non-empty query-string `query`, a non-POST request
yields all-empty options whatever its body (the body is universally
quantified, hence unread), and a POST request with no body (`r.body = none`,
i.e. Go `r.Body == nil`) also yields all-empty options. -/
theorem C3_gates :
    (∀ r : Request, Values.get r.urlQuery "query" = "" → r.method ≠ "POST" →
      NewRequestOptions r = {}) ∧
    (∀ r : Request, Values.get r.urlQuery "query" = "" → r.method = "POST" →
      r.body = none → NewRequestOptions r = {}) := by
  constructor
  · intro r hq hm
    simp [NewRequestOptions, getFromForm, hq, hm]
  · intro r hq hm hb
    simp [NewRequestOptions, getFromForm, hq, hm, hb]

/-- Witness for C3: a bare GET and a bodyless POST both decode to the
all-empty options. -/
theorem C3_witness :
    NewRequestOptions
        { method := "GET", contentType := "", urlQuery := [],
          body := none, postForm := Except.error () } = {} ∧
    NewRequestOptions
        { method := "POST", contentType := "application/json", urlQuery := [],
          body := none, postForm := Except.error () } = {} :=
  ⟨C3_gates.1
      { method := "GET", contentType := "", urlQuery := [],
        body := none, postForm := Except.error () } rfl (by decide),
   C3_gates.2
      { method := "POST", contentType := "application/json", urlQuery := [],
        body := none, postForm := Except.error () } rfl rfl rfl⟩

/-- Claim C4: for a POST with no query-string `query`, a body, and a
Content-Type whose first `;`-token is `application/graphql`, the whole body is
taken verbatim as `Query` with `Variables` and `OperationName` empty; a body
read failure yields all-empty options. -/
theorem C4_graphql_body (ct : String) (urlq : Values) (postForm : Except Unit Values)
    (hq : Values.get urlq "query" = "")
    (hct : contentTypeFirstToken ct = ContentTypeGraphQL) :
    (∀ s : String,
      NewRequestOptions
          { method := "POST", contentType := ct, urlQuery := urlq,
            body := some (Except.ok s), postForm := postForm } =
        { Query := s, Variables := [], OperationName := "" }) ∧
    NewRequestOptions
        { method := "POST", contentType := ct, urlQuery := urlq,
          body := some (Except.error ()), postForm := postForm } = {} := by
  constructor
  · intro s
    simp [NewRequestOptions, getFromForm, hq, hct]
  · simp [NewRequestOptions, getFromForm, hq, hct]

/-- Witness for C4: `application/graphql` body text becomes the query
verbatim, and a failing body read degrades to all-empty options. -/
theorem C4_witness :
    NewRequestOptions
        { method := "POST", contentType := "application/graphql", urlQuery := [],
          body := some (Except.ok "query \x7b field \x7d"), postForm := Except.error () } =
      { Query := "query \x7b field \x7d", Variables := [], OperationName := "" } ∧
    NewRequestOptions
        { method := "POST", contentType := "application/graphql", urlQuery := [],
          body := some (Except.error ()), postForm := Except.error () } = {} :=
  ⟨(C4_graphql_body "application/graphql" [] (Except.error ()) rfl (by decide)).1
      "query \x7b field \x7d",
   (C4_graphql_body "application/graphql" [] (Except.error ()) rfl (by decide)).2⟩

/-- Claim C8: Content-Type dispatch depends only on the first `;`-delimited
token of the header value — two requests differing only in what follows the
first `;` of their Content-Type decode identically. -/
theorem C8_dispatch_first_token (r : Request) (ct1 ct2 : String)
    (h : contentTypeFirstToken ct1 = contentTypeFirstToken ct2) :
    NewRequestOptions { r with contentType := ct1 } =
      NewRequestOptions { r with contentType := ct2 } := by
  simp only [NewRequestOptions, h]

/-- Witness for C8: `application/json; charset=utf-8` dispatches identically
to `application/json`. -/
theorem C8_witness :
    NewRequestOptions
        { method := "POST", contentType := "application/json; charset=utf-8",
          urlQuery := [],
          body := some (Except.ok "\x7b\"query\":\"q\"\x7d"), postForm := Except.error () } =
      NewRequestOptions
        { method := "POST", contentType := "application/json",
          urlQuery := [],
          body := some (Except.ok "\x7b\"query\":\"q\"\x7d"), postForm := Except.error () } :=
  C8_dispatch_first_token
    { method := "POST", contentType := "",
      urlQuery := [],
      body := some (Except.ok "\x7b\"query\":\"q\"\x7d"), postForm := Except.error () }
    "application/json; charset=utf-8" "application/json" (by decide)

/-- Claim C5: for a POST with no query-string `query` whose Content-Type
first token is neither `application/graphql` nor the form type (so
`application/json` or any other/absent value, which share one branch), and
whose body parses as the JSON object
`\x7b"query": Q, "variables": V, "operationName": O\x7d` with `V` a JSON
object (its keys, as a mapping, without duplicates), `NewRequestOptions`
returns exactly `\x7bQ, V, O\x7d`. -/
theorem C5_json_body (ct body Q O : String) (urlq : Values)
    (postForm : Except Unit Values) (V : List (String × Jval))
    (hq : Values.get urlq "query" = "")
    (hct1 : contentTypeFirstToken ct ≠ ContentTypeGraphQL)
    (hct2 : contentTypeFirstToken ct ≠ ContentTypeFormURLEncoded)
    (hparse : parseJson body = some (Jval.jobj
      [("query", Jval.jstr Q), ("variables", Jval.jobj V),
       ("operationName", Jval.jstr O)]))
    (hnodup : (V.map Prod.fst).Nodup) :
    NewRequestOptions
        { method := "POST", contentType := ct, urlQuery := urlq,
          body := some (Except.ok body), postForm := postForm } =
      { Query := Q, Variables := V, OperationName := O } := by
  have k1 : keyMatches "query" "query" = true := by decide
  have k2 : keyMatches "variables" "query" = false := by decide
  have k3 : keyMatches "variables" "variables" = true := by decide
  have k4 : keyMatches "operationName" "query" = false := by decide
  have k5 : keyMatches "operationName" "variables" = false := by decide
  have k6 : keyMatches "operationName" "operationname" = true := by decide
  have hUn : unmarshalIntoOpts {} body =
      ({ Query := Q, Variables := objInsertAll [] V, OperationName := O }, true) := by
    simp [unmarshalIntoOpts, hparse, setOptsField, k1, k2, k3, k4, k5, k6]
  simp [NewRequestOptions, getFromForm, hq, hct1, hct2, hUn,
    objInsertAll_nil_of_nodup V hnodup]

/-- Witness for C5 at a concrete JSON body with a nested `variables`
object. -/
theorem C5_witness :
    parseJson "\x7b\"query\":\"hi\",\"variables\":\x7b\"a\":1\x7d,\"operationName\":\"op\"\x7d" =
      some (Jval.jobj
        [("query", Jval.jstr "hi"), ("variables", Jval.jobj [("a", Jval.jnum "1")]),
         ("operationName", Jval.jstr "op")]) ∧
    NewRequestOptions
        { method := "POST", contentType := "application/json", urlQuery := [],
          body := some (Except.ok "\x7b\"query\":\"hi\",\"variables\":\x7b\"a\":1\x7d,\"operationName\":\"op\"\x7d"),
          postForm := Except.error () } =
      { Query := "hi", Variables := [("a", Jval.jnum "1")], OperationName := "op" } :=
  ⟨rfl,
   C5_json_body "application/json"
     "\x7b\"query\":\"hi\",\"variables\":\x7b\"a\":1\x7d,\"operationName\":\"op\"\x7d"
     "hi" "op" [] (Except.error ()) [("a", Jval.jnum "1")]
     rfl (by decide) (by decide) rfl (by decide)⟩

/-- Claim C6: on the POST JSON path, when `variables` arrives as a
JSON-encoded string `S` whose content parses as a JSON object `W`, the
secondary compatibility parse recovers `W` as the variables mapping, and
`query` and `operationName` are also returned. -/
theorem C6_double_encoded_variables (ct body Q O S : String) (urlq : Values)
    (postForm : Except Unit Values) (W : List (String × Jval))
    (hq : Values.get urlq "query" = "")
    (hct1 : contentTypeFirstToken ct ≠ ContentTypeGraphQL)
    (hct2 : contentTypeFirstToken ct ≠ ContentTypeFormURLEncoded)
    (hparse : parseJson body = some (Jval.jobj
      [("query", Jval.jstr Q), ("variables", Jval.jstr S),
       ("operationName", Jval.jstr O)]))
    (hS : parseJson S = some (Jval.jobj W))
    (hnodup : (W.map Prod.fst).Nodup) :
    NewRequestOptions
        { method := "POST", contentType := ct, urlQuery := urlq,
          body := some (Except.ok body), postForm := postForm } =
      { Query := Q, Variables := W, OperationName := O } := by
  have k1 : keyMatches "query" "query" = true := by decide
  have k2 : keyMatches "variables" "query" = false := by decide
  have k3 : keyMatches "variables" "variables" = true := by decide
  have k4 : keyMatches "operationName" "query" = false := by decide
  have k5 : keyMatches "operationName" "variables" = false := by decide
  have k6 : keyMatches "operationName" "operationname" = true := by decide
  have hUn : unmarshalIntoOpts {} body =
      ({ Query := Q, Variables := [], OperationName := O }, false) := by
    simp [unmarshalIntoOpts, hparse, setOptsField, k1, k2, k3, k4, k5, k6]
  have hCompat : unmarshalIntoCompat {} body =
      ({ Query := Q, Variables := S, OperationName := O }, true) := by
    simp [unmarshalIntoCompat, hparse, setCompatField, k1, k2, k3, k4, k5, k6]
  have hVm : unmarshalIntoVarMap [] S = (objInsertAll [] W, true) := by
    simp [unmarshalIntoVarMap, hS]
  simp [NewRequestOptions, getFromForm, hq, hct1, hct2, hUn, hCompat, hVm,
    objInsertAll_nil_of_nodup W hnodup]

/-- Witness for C6 at a concrete body whose `variables` field is a
JSON-encoded string containing an object. -/
theorem C6_witness :
    parseJson "\x7b\"query\":\"hi\",\"variables\":\"\x7b\\\"a\\\":1\x7d\",\"operationName\":\"op\"\x7d" =
      some (Jval.jobj
        [("query", Jval.jstr "hi"), ("variables", Jval.jstr "\x7b\"a\":1\x7d"),
         ("operationName", Jval.jstr "op")]) ∧
    NewRequestOptions
        { method := "POST", contentType := "application/json", urlQuery := [],
          body := some (Except.ok "\x7b\"query\":\"hi\",\"variables\":\"\x7b\\\"a\\\":1\x7d\",\"operationName\":\"op\"\x7d"),
          postForm := Except.error () } =
      { Query := "hi", Variables := [("a", Jval.jnum "1")], OperationName := "op" } :=
  ⟨rfl,
   C6_double_encoded_variables "application/json"
     "\x7b\"query\":\"hi\",\"variables\":\"\x7b\\\"a\\\":1\x7d\",\"operationName\":\"op\"\x7d"
     "hi" "op" "\x7b\"a\":1\x7d" [] (Except.error ()) [("a", Jval.jnum "1")]
     rfl (by decide) (by decide) rfl rfl (by decide)⟩

/-- Counterexample to claim C2 as stated: the request's `variables` query
parameter holds `\x7b"a":1\x7d`, which is a valid JSON object decoding to
the mapping `[("a", 1)]`, yet the returned `Variables` is empty — the source
passes the nil map by value to `json.Unmarshal`, which therefore cannot write
to it, so even well-formed variables are dropped. -/
theorem C2_counterexample :
    parseJson "\x7b\"a\":1\x7d" = some (Jval.jobj [("a", Jval.jnum "1")]) ∧
    (NewRequestOptions
        { method := "GET", contentType := "",
          urlQuery := [("query", ["q"]), ("variables", ["\x7b\"a\":1\x7d"])],
          body := none, postForm := Except.error () }).Variables = [] ∧
    ([] : List (String × Jval)) ≠ [("a", Jval.jnum "1")] :=
  ⟨rfl, rfl, by simp⟩

/-- Claim C2 (amended): in the query-string/form extraction, whenever the
`query` field is non-empty the returned `Variables` is empty regardless of
the `variables` field's content — valid or invalid JSON alike — and no error
is raised. -/
theorem C2_amended_vars_noop (values : Values)
    (h : Values.get values "query" ≠ "") :
    getFromForm values =
      some { Query := Values.get values "query", Variables := [],
             OperationName := Values.get values "operationName" } := by
  simp [getFromForm, h]

/-- Witness for the amended C2: even a valid JSON object in `variables`
leaves `Variables` empty. -/
theorem C2_amended_witness :
    getFromForm [("query", ["q"]), ("variables", ["\x7b\"a\":1\x7d"])] =
      some { Query := "q", Variables := [], OperationName := "" } :=
  C2_amended_vars_noop [("query", ["q"]), ("variables", ["\x7b\"a\":1\x7d"])] (by decide)

/-- Claim C7: `NewRequestOptions` is total — it returns a `RequestOptions`
value for every request (first conjunct; the embedding itself is a total
function, mirroring the source, whose every error branch is handled) — and
malformed input degrades to empty values: on the JSON/default path an
unparseable body yields the all-empty options (second conjunct). -/
theorem C7_total :
    (∀ r : Request, ∃ opts : RequestOptions, NewRequestOptions r = opts) ∧
    (∀ (r : Request) (body : String),
      Values.get r.urlQuery "query" = "" → r.method = "POST" →
      r.body = some (Except.ok body) →
      contentTypeFirstToken r.contentType ≠ ContentTypeGraphQL →
      contentTypeFirstToken r.contentType ≠ ContentTypeFormURLEncoded →
      parseJson body = none →
      NewRequestOptions r = {}) := by
  constructor
  · intro r
    exact ⟨NewRequestOptions r, rfl⟩
  · intro r body hq hm hb hct1 hct2 hparse
    have hUn : unmarshalIntoOpts {} body = ({}, false) := by
      simp [unmarshalIntoOpts, hparse]
    have hCompat : unmarshalIntoCompat {} body = ({}, false) := by
      simp [unmarshalIntoCompat, hparse]
    have hVm : unmarshalIntoVarMap [] "" = ([], false) := rfl
    simp [NewRequestOptions, getFromForm, hq, hm, hb, hct1, hct2, hUn, hCompat, hVm]

/-- Witness for C7: an arbitrary PUT decodes to some options, and a POST
with a body that is not JSON decodes to the all-empty options. -/
theorem C7_witness :
    (∃ opts : RequestOptions,
      NewRequestOptions
          { method := "PUT", contentType := "x", urlQuery := [],
            body := some (Except.ok "junk"), postForm := Except.error () } = opts) ∧
    NewRequestOptions
        { method := "POST", contentType := "text/plain", urlQuery := [],
          body := some (Except.ok "not json at all"), postForm := Except.error () } = {} :=
  ⟨C7_total.1
      { method := "PUT", contentType := "x", urlQuery := [],
        body := some (Except.ok "junk"), postForm := Except.error () },
   C7_total.2
      { method := "POST", contentType := "text/plain", urlQuery := [],
        body := some (Except.ok "not json at all"), postForm := Except.error () }
      "not json at all" rfl rfl rfl (by decide) (by decide) rfl⟩

/-- Claim C9: `New` (handler.go, first variant) aborts with the panic
message `undefined GraphQL schema` when the config's schema is nil, and also
for a nil config (whose `NewConfig` default has a nil schema); with a non-nil
schema it returns a handler carrying exactly that schema and the config's
remaining fields. -/
theorem C9_new_requires_schema :
    (∀ c : SrcMain.Config, c.Schema = none →
      SrcMain.New (some c) = Except.error "undefined GraphQL schema") ∧
    SrcMain.New none = Except.error "undefined GraphQL schema" ∧
    (∀ (c : SrcMain.Config) (s : GqlSchema), c.Schema = some s →
      SrcMain.New (some c) = Except.ok
        { Schema := some s, Pretty := c.Pretty,
          BeforeRequest := c.BeforeRequest, AfterRequest := c.AfterRequest }) := by
  refine ⟨?_, ?_, ?_⟩
  · intro c hc
    simp [SrcMain.New, hc]
  · rfl
  · intro c s hc
    simp [SrcMain.New, hc]

/-- Witness for C9 at a nil-schema config, a nil config, and a config with a
schema. -/
theorem C9_witness :
    SrcMain.New
        (some { Schema := none, Pretty := true,
                BeforeRequest := fun _ _ _ _ _ => (),
                AfterRequest := fun _ _ _ _ _ => () }) =
      Except.error "undefined GraphQL schema" ∧
    SrcMain.New none = Except.error "undefined GraphQL schema" ∧
    SrcMain.New
        (some { Schema := some ⟨1⟩, Pretty := false,
                BeforeRequest := fun _ _ _ _ _ => (),
                AfterRequest := fun _ _ _ _ _ => () }) =
      Except.ok
        { Schema := some ⟨1⟩, Pretty := false,
          BeforeRequest := fun _ _ _ _ _ => (),
          AfterRequest := fun _ _ _ _ _ => () } :=
  ⟨C9_new_requires_schema.1
      { Schema := none, Pretty := true,
        BeforeRequest := fun _ _ _ _ _ => (),
        AfterRequest := fun _ _ _ _ _ => () } rfl,
   C9_new_requires_schema.2.1,
   C9_new_requires_schema.2.2
      { Schema := some ⟨1⟩, Pretty := false,
        BeforeRequest := fun _ _ _ _ _ => (),
        AfterRequest := fun _ _ _ _ _ => () } ⟨1⟩ rfl⟩

/-- Claim C10: in the unnamed variant, `New` never copies
`ShowFullStackTrace` from the config: for every config with a schema, the
returned handler has `ShowFullStackTrace = false`. -/
theorem C10_stack_trace_dropped (c : Part000.Config) (s : GqlSchema)
    (hc : c.Schema = some s) :
    ∃ hdl : Part000.Handler,
      Part000.New (some c) = Except.ok hdl ∧ hdl.ShowFullStackTrace = false := by
  refine ⟨{ Schema := some s, Pretty := c.Pretty,
            LogSlowResponses := c.LogSlowResponses }, ?_, rfl⟩
  simp [Part000.New, hc]

/-- Witness for C10: even with `ShowFullStackTrace := true` in the config,
the constructed handler has it `false`. -/
theorem C10_witness :
    ∃ hdl : Part000.Handler,
      Part000.New
          (some { Schema := some ⟨1⟩, Pretty := true,
                  LogSlowResponses := true, ShowFullStackTrace := true }) =
        Except.ok hdl ∧
      hdl.ShowFullStackTrace = false :=
  C10_stack_trace_dropped
    { Schema := some ⟨1⟩, Pretty := true,
      LogSlowResponses := true, ShowFullStackTrace := true } ⟨1⟩ rfl
